import Mathlib

/-!
Shallow embedding of `networkx/classes/axelrod.py` (class `Cultural_Network`).

The graph substrate (networkx `Graph`) is modelled by a list of node
identities (`nodes`, in iteration order), an adjacency function `adj`
(`list(self.neighbors(n))`), and per-node attribute storage: the mutable
`"culture"` attribute is a total function `culture : Nat → List Nat`
(nodes outside the node set carry an irrelevant default), and the optional
`"color"` attribute is `color : Nat → Option Nat`.  Python `random` /
`numpy.random` draws are passed in explicitly: a culture matrix draw
function for `create_cultural_network`, the chosen agent/partner, a
uniform rational `r` deciding the Bernoulli trial (`np.random.binomial(1, p)`
succeeds iff `r < p`, so probability 0 never succeeds and probability 1
always does for `0 ≤ r < 1`), and the index `k` chosen by
`random.choice(disagreements)`.
-/

structure Network where
  nodes : List Nat
  adj : Nat → List Nat
  culture : Nat → List Nat
  color : Nat → Option Nat
  culturized : Bool
  number_of_features : Nat
  number_of_traits : Nat

/-- Python return values: a normal value, a bare `None`, or a raised
exception (its message). -/
inductive PyVal (α : Type) where
  | ret (a : α)
  | retNone
  | exn (msg : String)
deriving DecidableEq

/-- The message printed by `common_features` and `list_cultures` when the
network is not culturized. -/
def not_culturized_message : String :=
  "You must add culture to the network. Use the 'create_cultural_network' method."

/-- Model of `sum(np.array(c1) == np.array(c2))`: the number of positions where the
two culture vectors hold equal values (elementwise comparison of the two
equal-length arrays; stated over the common prefix). -/
def commonCount (c1 c2 : List Nat) : Nat :=
  (List.range (min c1.length c2.length)).countP (fun i => c1.getD i 0 == c2.getD i 0)

/-- Model of `Cultural_Network.common_features(pos1, pos2)`: returns the matching
count when culturized, otherwise prints a message and returns `None`. -/
def Network.common_features (net : Network) (pos1 pos2 : Nat) : Option Nat :=
  if net.culturized then
    some (commonCount (net.culture pos1) (net.culture pos2))
  else
    none

/-- Console output of `common_features`: the not-culturized branch prints
`not_culturized_message`; the culturized branch prints nothing. -/
def Network.common_features_output (net : Network) : List String :=
  if net.culturized then [] else [not_culturized_message]

/-- The assignment loop `for index, culture in zip(list(self.nodes), cultures):
self.nodes[index]["culture"] = culture`, as a left fold of pointwise updates. -/
def assignCultures (culture : Nat → List Nat) : List (Nat × List Nat) → (Nat → List Nat)
  | [] => culture
  | (n, c) :: rest => assignCultures (fun m => if m = n then c else culture m) rest

/-- Model of `Cultural_Network.create_cultural_network(number_of_features, number_of_traits)`:
stores both parameters, draws a `len(self) × number_of_features` matrix of
traits (`random.randint(1, number_of_traits)` modelled by the draw function
`draw i j`), assigns row `i` to the `i`-th node in iteration order, sets
`culturized = True` and returns the updated network (`return self`). -/
def Network.create_cultural_network (net : Network)
    (number_of_features number_of_traits : Nat) (draw : Nat → Nat → Nat) : Network :=
  let cultures : List (List Nat) :=
    (List.range net.nodes.length).map
      (fun i => (List.range number_of_features).map (fun j => draw i j))
  { net with
    number_of_features := number_of_features
    number_of_traits := number_of_traits
    culture := assignCultures net.culture (net.nodes.zip cultures)
    culturized := true }

/-- Model of `enumerate(np.array(agent_culture) != np.array(neighbour_culture))`
filtered to the indices where the entries disagree (the `disagreements`
list built by `step`). -/
def disagreementIdxs (c1 c2 : List Nat) : List Nat :=
  (List.range (min c1.length c2.length)).filter (fun i => ¬ (c1.getD i 0 == c2.getD i 0))

/-- The success probability handed to `np.random.binomial(1, p=probability)`
in `step`: `self.common_features(agent, neighbour) / len(agent_culture)`. -/
def Network.step_probability (net : Network) (agent_number neighbour_number : Nat) : ℚ :=
  ((commonCount (net.culture agent_number) (net.culture neighbour_number) : ℚ)) /
    (((net.culture agent_number).length : Nat) : ℚ)

/-- The index `feature_to_change_idx = random.choice(disagreements)` picked
inside `step`, with `k` the position the random choice lands on. -/
def Network.feature_to_change_idx (net : Network)
    (agent_number neighbour_number k : Nat) : Nat :=
  (disagreementIdxs (net.culture agent_number) (net.culture neighbour_number)).getD k 0

/-- Model of `Cultural_Network.step(verbose=False)`: on a culturized network, with the
randomly chosen `agent_number` (a random node), `neighbour_number` (a random
neighbor of the agent), the uniform draw `r` deciding the Bernoulli trial
(success iff `r < probability`), and `k` the position `random.choice` picks
in `disagreements` — overwrite the partner's value at the chosen disagreeing
index with the agent's value there when the trial succeeds and disagreements
exist; otherwise (including when not culturized) return the network
unchanged (`return self`, the not-culturized branch prints nothing). -/
def Network.step (net : Network) (agent_number neighbour_number : Nat)
    (r : ℚ) (k : Nat) : Network :=
  if net.culturized then
    let agent_culture := net.culture agent_number
    let neighbour_culture := net.culture neighbour_number
    let disagreements := disagreementIdxs agent_culture neighbour_culture
    let probability := net.step_probability agent_number neighbour_number
    if 0 < disagreements.length ∧ r < probability then
      let idx := net.feature_to_change_idx agent_number neighbour_number k
      { net with
        culture := fun m =>
          if m = neighbour_number then
            neighbour_culture.set idx (agent_culture.getD idx 0)
          else net.culture m }
    else net
  else net

/-- The distinct culture vectors present in the network
(`set()` of the tuples of all node cultures, back as a list of lists;
iteration order of a Python set is unspecified, modelled by `dedup`). -/
def Network.culture_list (net : Network) : List (List Nat) :=
  (net.nodes.map net.culture).dedup

/-- Model of `Cultural_Network.network_cultures()`: the distinct cultures and their
count when culturized, else `None` (that branch prints nothing). -/
def Network.network_cultures (net : Network) : Option (List (List Nat) × Nat) :=
  if net.culturized then
    some (net.culture_list, net.culture_list.length)
  else
    none

/-- Console output of `network_cultures`: neither branch prints. -/
def Network.network_cultures_output (_net : Network) : List String := []

/-- The `culture_sizes` list built by `cultural_sizes_and_max`: for each
distinct culture, the number of nodes whose culture equals it. -/
def Network.culture_sizes (net : Network) : List Nat :=
  net.culture_list.map (fun c => net.nodes.countP (fun m => net.culture m == c))

/-- Model of `Cultural_Network.cultural_sizes_and_max()`: the per-culture sizes and
their maximum when culturized (`max(culture_sizes)` raises `ValueError` on
an empty list, i.e. on an empty node set), else `None`. -/
def Network.cultural_sizes_and_max (net : Network) : PyVal (List Nat × Nat) :=
  if net.culturized then
    match net.culture_sizes.max? with
    | some m => .ret (net.culture_sizes, m)
    | none => .exn "max() arg is an empty sequence"
  else
    .retNone

/-- Model of `Cultural_Network.colorea_nodos()`: when culturized, assigns to each node
the index of its culture in `network_cultures()[0]` (`list.index`, modelled
by `List.indexOf`) as the `"color"` attribute and returns the list of those
indices in node-iteration order; else returns `None` with the state
untouched (that branch prints nothing). -/
def Network.colorea_nodos (net : Network) : Network × Option (List Nat) :=
  if net.culturized then
    let color_list := net.nodes.map (fun m => net.culture_list.indexOf (net.culture m))
    ({ net with
        color := fun m =>
          if m ∈ net.nodes then some (net.culture_list.indexOf (net.culture m))
          else net.color m },
      some color_list)
  else
    (net, none)

/-- Model of `Cultural_Network.fixed_point()`: when culturized, counts per node the
neighbors whose common-feature count with it is `0` or
`number_of_features` (`check_node`), counts the nodes all of whose
neighbors pass (`check_network`), and returns whether every node passed;
else returns `None`. -/
def Network.fixed_point (net : Network) : Option Bool :=
  if net.culturized then
    let check_network :=
      net.nodes.countP (fun node_number =>
        let check_node :=
          (net.adj node_number).countP (fun neighbour_number =>
            (net.common_features node_number neighbour_number == some 0) ||
            (net.common_features node_number neighbour_number ==
              some net.number_of_features))
        check_node == (net.adj node_number).length)
    some (check_network == net.nodes.length)
  else
    none

/-- The culture invariants of the data model: every node's culture vector
has length `number_of_features` and entries in `[1, number_of_traits]`. -/
def cultureInvariant (net : Network) : Prop :=
  ∀ n ∈ net.nodes,
    (net.culture n).length = net.number_of_features ∧
    ∀ v ∈ net.culture n, 1 ≤ v ∧ v ≤ net.number_of_traits

instance (net : Network) : Decidable (cultureInvariant net) := by
  unfold cultureInvariant; infer_instance

/-- Adjacency stays inside the node set (always true of a networkx graph). -/
def closedAdj (net : Network) : Prop :=
  ∀ n ∈ net.nodes, ∀ m ∈ net.adj n, m ∈ net.nodes

instance (net : Network) : Decidable (closedAdj net) := by
  unfold closedAdj; infer_instance

/-- A sample culturized network used by witnesses: nodes 0 and 1 are
adjacent and share culture `[1, 2]`; node 2 is isolated with culture
`[3, 4]`. -/
def sampleNet : Network where
  nodes := [0, 1, 2]
  adj := fun n => if n = 0 then [1] else if n = 1 then [0] else []
  culture := fun n => if n = 0 then [1, 2] else if n = 1 then [1, 2] else [3, 4]
  color := fun _ => none
  culturized := true
  number_of_features := 2
  number_of_traits := 4

/-- Unfolding of the double counting loop in `fixed_point`: the counts reach
their maxima exactly when every node-neighbor pair matches on `0` or all
features. -/
theorem fixed_point_iff_aux (net : Network) (hc : net.culturized = true) :
    net.fixed_point = some true ↔
      ∀ n ∈ net.nodes, ∀ m ∈ net.adj n,
        net.common_features n m = some 0 ∨
        net.common_features n m = some net.number_of_features := by
  simp only [Network.fixed_point, hc, if_true, Option.some.injEq, beq_iff_eq,
    List.countP_eq_length, Bool.or_eq_true]

/-- C1: on a culturized network, `fixed_point` returns `True` iff for every
node `n` and every neighbor `m` of `n`, `common_features(n, m)` is `0` or
`number_of_features`; a node with an empty neighbor list satisfies the
inner quantifier vacuously. -/
theorem fixed_point_iff_all_pairs (net : Network) (hc : net.culturized = true) :
    net.fixed_point = some true ↔
      ∀ n ∈ net.nodes, ∀ m ∈ net.adj n,
        net.common_features n m = some 0 ∨
        net.common_features n m = some net.number_of_features :=
  fixed_point_iff_aux net hc

/-- C1 witness: the theorem applied to the concrete network `sampleNet`. -/
theorem fixed_point_iff_all_pairs_witness :
    sampleNet.culturized = true ∧
      (sampleNet.fixed_point = some true ↔
        ∀ n ∈ sampleNet.nodes, ∀ m ∈ sampleNet.adj n,
          sampleNet.common_features n m = some 0 ∨
          sampleNet.common_features n m = some sampleNet.number_of_features) :=
  ⟨rfl, fixed_point_iff_all_pairs sampleNet rfl⟩

/-- The matching-position count is symmetric in its two arguments. -/
theorem commonCount_comm (c1 c2 : List Nat) : commonCount c1 c2 = commonCount c2 c1 := by
  unfold commonCount
  rw [Nat.min_comm]
  refine List.countP_congr (fun i _ => ?_)
  simp only [beq_iff_eq]
  exact eq_comm

/-- C8: on a culturized network, `common_features` is symmetric for every
pair of existing node identities. -/
theorem common_features_symm (net : Network) (hc : net.culturized = true)
    (a b : Nat) (ha : a ∈ net.nodes) (hb : b ∈ net.nodes) :
    net.common_features a b = net.common_features b a := by
  simp only [Network.common_features, hc, if_true, commonCount_comm]

/-- C8 witness: symmetry at the concrete pair `(0, 1)` of `sampleNet`. -/
theorem common_features_symm_witness :
    sampleNet.culturized = true ∧ 0 ∈ sampleNet.nodes ∧ 1 ∈ sampleNet.nodes ∧
      sampleNet.common_features 0 1 = sampleNet.common_features 1 0 :=
  ⟨rfl, by decide, by decide,
    common_features_symm sampleNet rfl 0 1 (by decide) (by decide)⟩

/-- The sizes computed by `cultural_sizes_and_max` add up to the node count:
each node's culture appears exactly once among the distinct cultures. -/
theorem culture_sizes_sum (net : Network) :
    net.culture_sizes.sum = net.nodes.length := by
  have hlen := List.sum_map_count_dedup_eq_length (net.nodes.map net.culture)
  rw [List.length_map] at hlen
  simp only [List.count_eq_countP] at hlen
  rw [← hlen]
  unfold Network.culture_sizes Network.culture_list
  refine congrArg List.sum (List.map_congr_left (fun c _ => ?_))
  rw [List.countP_map]
  refine List.countP_congr (fun m _ => ?_)
  simp [beq_iff_eq]

/-- C7: whenever `cultural_sizes_and_max` returns a value on a culturized
network, the returned cluster sizes sum to the total node count. -/
theorem cluster_sizes_sum_eq_node_count (net : Network) (hc : net.culturized = true)
    (sizes : List Nat) (mx : Nat)
    (h : net.cultural_sizes_and_max = PyVal.ret (sizes, mx)) :
    sizes.sum = net.nodes.length := by
  unfold Network.cultural_sizes_and_max at h
  rw [hc] at h
  simp only [if_true] at h
  cases hm : net.culture_sizes.max? with
  | some m =>
    rw [hm] at h
    cases h
    exact culture_sizes_sum net
  | none =>
    rw [hm] at h
    cases h

/-- C7 witness: on `sampleNet` the sizes are `[2, 1]` and sum to 3 nodes. -/
theorem cluster_sizes_sum_witness :
    sampleNet.culturized = true ∧
      sampleNet.cultural_sizes_and_max = PyVal.ret ([2, 1], 2) ∧
      ([2, 1] : List Nat).sum = sampleNet.nodes.length :=
  ⟨rfl, by decide,
    cluster_sizes_sum_eq_node_count sampleNet rfl [2, 1] 2 (by decide)⟩

/-- A culturized network with an empty node set. -/
def emptyNet : Network where
  nodes := []
  adj := fun _ => []
  culture := fun _ => []
  color := fun _ => none
  culturized := true
  number_of_features := 3
  number_of_traits := 2

/-- C10: on a culturized network with no nodes, `cultural_sizes_and_max`
raises (Python `max` on the empty size list) instead of returning; with at
least one node it returns a value. -/
theorem cultural_sizes_and_max_empty_raises (net : Network)
    (hc : net.culturized = true) :
    (net.nodes = [] →
      net.cultural_sizes_and_max = PyVal.exn "max() arg is an empty sequence") ∧
    (net.nodes ≠ [] →
      ∃ sizes mx, net.cultural_sizes_and_max = PyVal.ret (sizes, mx)) := by
  constructor
  · intro h
    unfold Network.cultural_sizes_and_max
    simp only [hc, if_true]
    have hnil : net.culture_sizes.max? = none := by
      rw [List.max?_eq_none_iff]
      unfold Network.culture_sizes Network.culture_list
      rw [h]
      rfl
    rw [hnil]
  · intro h
    unfold Network.cultural_sizes_and_max
    simp only [hc, if_true]
    cases hm : net.culture_sizes.max? with
    | some m => exact ⟨net.culture_sizes, m, rfl⟩
    | none =>
      exfalso
      apply h
      rw [List.max?_eq_none_iff] at hm
      unfold Network.culture_sizes Network.culture_list at hm
      rw [List.map_eq_nil_iff, List.dedup_eq_nil, List.map_eq_nil_iff] at hm
      exact hm

/-- C10 witness: the theorem applied to the concrete empty network. -/
theorem cultural_sizes_and_max_empty_raises_witness :
    emptyNet.culturized = true ∧
      ((emptyNet.nodes = [] →
        emptyNet.cultural_sizes_and_max = PyVal.exn "max() arg is an empty sequence") ∧
      (emptyNet.nodes ≠ [] →
        ∃ sizes mx, emptyNet.cultural_sizes_and_max = PyVal.ret (sizes, mx))) :=
  ⟨rfl, cultural_sizes_and_max_empty_raises emptyNet rfl⟩

/-- A node not assigned by the loop keeps its previous culture. -/
theorem assignCultures_not_mem (f : Nat → List Nat) (l : List (Nat × List Nat))
    (m : Nat) (h : m ∉ l.map Prod.fst) : assignCultures f l m = f m := by
  induction l generalizing f with
  | nil => rfl
  | cons p rest ih =>
    obtain ⟨n, c⟩ := p
    simp only [List.map_cons, List.mem_cons, not_or] at h
    rw [assignCultures, ih _ h.2]
    simp [h.1]

/-- A node assigned by the loop ends up with one of the assigned cultures. -/
theorem assignCultures_mem (f : Nat → List Nat) (l : List (Nat × List Nat))
    (m : Nat) (h : m ∈ l.map Prod.fst) :
    assignCultures f l m ∈ l.map Prod.snd := by
  induction l generalizing f with
  | nil => simp at h
  | cons p rest ih =>
    obtain ⟨n, c⟩ := p
    rw [assignCultures]
    simp only [List.map_cons]
    by_cases hm : m ∈ rest.map Prod.fst
    · exact List.mem_cons_of_mem _ (ih _ hm)
    · rw [assignCultures_not_mem _ _ _ hm]
      simp only [List.map_cons, List.mem_cons] at h
      have hn : m = n := h.resolve_right hm
      simp [hn]

/-- C3: after `create_cultural_network(F, T)` with `F, T ≥ 1` and draws in
`[1, T]`, the network is culturized, keeps its node set, records `F` and
`T`, and every node's culture vector has length `F` with entries in
`[1, T]`; the returned network is the updated object itself. -/
theorem create_cultural_network_bounds (net : Network)
    (number_of_features number_of_traits : Nat)
    (hF : 1 ≤ number_of_features) (hT : 1 ≤ number_of_traits)
    (draw : Nat → Nat → Nat)
    (hdraw : ∀ i j, 1 ≤ draw i j ∧ draw i j ≤ number_of_traits) :
    (net.create_cultural_network number_of_features number_of_traits draw).culturized
        = true ∧
    (net.create_cultural_network number_of_features number_of_traits draw).nodes
        = net.nodes ∧
    (net.create_cultural_network number_of_features number_of_traits draw).number_of_features
        = number_of_features ∧
    (net.create_cultural_network number_of_features number_of_traits draw).number_of_traits
        = number_of_traits ∧
    ∀ n ∈ net.nodes,
      ((net.create_cultural_network number_of_features number_of_traits draw).culture n).length
          = number_of_features ∧
      ∀ v ∈ (net.create_cultural_network number_of_features number_of_traits draw).culture n,
        1 ≤ v ∧ v ≤ number_of_traits := by
  refine ⟨rfl, rfl, rfl, rfl, fun n hn => ?_⟩
  have hculture :
      (net.create_cultural_network number_of_features number_of_traits draw).culture n ∈
        ((List.range net.nodes.length).map
          (fun i => (List.range number_of_features).map (fun j => draw i j))).map id := by
    unfold Network.create_cultural_network
    have hlen : net.nodes.length ≤
        ((List.range net.nodes.length).map
          (fun i => (List.range number_of_features).map (fun j => draw i j))).length := by
      simp
    have hfst : n ∈ (net.nodes.zip
        ((List.range net.nodes.length).map
          (fun i => (List.range number_of_features).map (fun j => draw i j)))).map Prod.fst := by
      rw [List.map_fst_zip _ _ hlen]
      exact hn
    have hlen2 : ((List.range net.nodes.length).map
        (fun i => (List.range number_of_features).map (fun j => draw i j))).length ≤
          net.nodes.length := by
      simp
    have := assignCultures_mem net.culture _ n hfst
    rw [List.map_snd_zip _ _ hlen2] at this
    simpa using this
  simp only [List.map_id] at hculture
  obtain ⟨i, _, hi⟩ := List.mem_map.mp hculture
  constructor
  · rw [← hi]
    simp
  · intro v hv
    rw [← hi] at hv
    obtain ⟨j, _, hj⟩ := List.mem_map.mp hv
    rw [← hj]
    exact hdraw i j

/-- An uncultured two-node network used to exercise initialization. -/
def baseNet : Network where
  nodes := [0, 1]
  adj := fun n => if n = 0 then [1] else if n = 1 then [0] else []
  culture := fun _ => []
  color := fun _ => none
  culturized := false
  number_of_features := 0
  number_of_traits := 0

/-- C3 witness: initializing `baseNet` with 2 features, 3 traits and the
constant draw 1. -/
theorem create_cultural_network_bounds_witness :
    (baseNet.create_cultural_network 2 3 (fun _ _ => 1)).culturized = true ∧
    (baseNet.create_cultural_network 2 3 (fun _ _ => 1)).nodes = baseNet.nodes ∧
    (baseNet.create_cultural_network 2 3 (fun _ _ => 1)).number_of_features = 2 ∧
    (baseNet.create_cultural_network 2 3 (fun _ _ => 1)).number_of_traits = 3 ∧
    ∀ n ∈ baseNet.nodes,
      ((baseNet.create_cultural_network 2 3 (fun _ _ => 1)).culture n).length = 2 ∧
      ∀ v ∈ (baseNet.create_cultural_network 2 3 (fun _ _ => 1)).culture n,
        1 ≤ v ∧ v ≤ 3 :=
  create_cultural_network_bounds baseNet 2 3 (by decide) (by decide)
    (fun _ _ => 1) (fun i j => by simp)

/-- Membership in the disagreement index list: an index below both lengths
where the two vectors differ. -/
theorem mem_disagreementIdxs {c1 c2 : List Nat} {i : Nat} :
    i ∈ disagreementIdxs c1 c2 ↔
      i < min c1.length c2.length ∧ c1.getD i 0 ≠ c2.getD i 0 := by
  simp [disagreementIdxs]

/-- When `k` is in range, the chosen index is itself a disagreement index. -/
theorem feature_to_change_idx_mem (net : Network) (a b k : Nat)
    (hk : k < (disagreementIdxs (net.culture a) (net.culture b)).length) :
    net.feature_to_change_idx a b k ∈ disagreementIdxs (net.culture a) (net.culture b) := by
  unfold Network.feature_to_change_idx
  rw [List.getD_eq_getElem _ _ hk]
  exact List.getElem_mem hk

/-- Whenever disagreements exist, the chosen index is below both culture
lengths (for any `k`: out-of-range `k` defaults to index 0). -/
theorem feature_to_change_idx_lt (net : Network) (a b k : Nat)
    (hd : disagreementIdxs (net.culture a) (net.culture b) ≠ []) :
    net.feature_to_change_idx a b k <
      min (net.culture a).length (net.culture b).length := by
  by_cases hk : k < (disagreementIdxs (net.culture a) (net.culture b)).length
  · exact (mem_disagreementIdxs.mp (feature_to_change_idx_mem net a b k hk)).1
  · have hzero : net.feature_to_change_idx a b k = 0 := by
      unfold Network.feature_to_change_idx
      rw [List.getD_eq_getElem?_getD, List.getElem?_eq_none (Nat.le_of_not_lt hk)]
      rfl
    rcases List.exists_mem_of_ne_nil _ hd with ⟨i, hi⟩
    have hilt := (mem_disagreementIdxs.mp hi).1
    omega

/-- The `then` branch of `step`: with a culturized network, non-empty
disagreements and a successful Bernoulli trial, the partner's culture is
overwritten at the chosen index with the agent's value there. -/
theorem step_eq_of_success (net : Network) (hc : net.culturized = true)
    (a b : Nat) (r : ℚ) (k : Nat)
    (hd : disagreementIdxs (net.culture a) (net.culture b) ≠ [])
    (hr : r < net.step_probability a b) :
    net.step a b r k =
      { net with culture := fun m =>
          if m = b then
            ((net.culture b).set (net.feature_to_change_idx a b k)
              ((net.culture a).getD (net.feature_to_change_idx a b k) 0))
          else net.culture m } := by
  simp only [Network.step, hc, if_true]
  rw [if_pos ⟨List.length_pos.mpr hd, hr⟩]

/-- The `else` branches of `step`: with empty disagreements or a failed
Bernoulli trial (or an uncultured network), the network is returned
unchanged. -/
theorem step_eq_of_failure (net : Network) (a b : Nat) (r : ℚ) (k : Nat)
    (h : ¬ (0 < (disagreementIdxs (net.culture a) (net.culture b)).length ∧
        r < net.step_probability a b)) :
    net.step a b r k = net := by
  by_cases hc : net.culturized = true
  · simp only [Network.step, hc, if_true]
    rw [if_neg h]
  · simp only [Network.step]
    rw [if_neg hc]

/-- C4: on a culturized network satisfying the culture invariants, the
Bernoulli probability used by `step` equals
`common_features(agent, partner) / number_of_features`, and when the
disagreement list is non-empty and the trial succeeds, the partner's
culture is overwritten at the chosen disagreeing index with the agent's
value there, every index chosen being a genuine disagreement and every
other node (the agent included) staying unchanged. -/
theorem step_copy_semantics (net : Network) (hc : net.culturized = true)
    (hinv : cultureInvariant net)
    (agent_number neighbour_number : Nat)
    (ha : agent_number ∈ net.nodes) (hb : neighbour_number ∈ net.adj agent_number)
    (r : ℚ) (k : Nat)
    (hd : disagreementIdxs (net.culture agent_number) (net.culture neighbour_number) ≠ [])
    (hk : k < (disagreementIdxs (net.culture agent_number)
      (net.culture neighbour_number)).length)
    (hr : r < net.step_probability agent_number neighbour_number) :
    net.step_probability agent_number neighbour_number =
      (commonCount (net.culture agent_number) (net.culture neighbour_number) : ℚ) /
        (net.number_of_features : ℚ) ∧
    (net.step agent_number neighbour_number r k).culture neighbour_number =
      ((net.culture neighbour_number).set
        (net.feature_to_change_idx agent_number neighbour_number k)
        ((net.culture agent_number).getD
          (net.feature_to_change_idx agent_number neighbour_number k) 0)) ∧
    (net.culture agent_number).getD
        (net.feature_to_change_idx agent_number neighbour_number k) 0 ≠
      (net.culture neighbour_number).getD
        (net.feature_to_change_idx agent_number neighbour_number k) 0 ∧
    net.feature_to_change_idx agent_number neighbour_number k <
      (net.culture neighbour_number).length ∧
    ∀ m, m ≠ neighbour_number →
      (net.step agent_number neighbour_number r k).culture m = net.culture m := by
  have hmem := mem_disagreementIdxs.mp
    (feature_to_change_idx_mem net agent_number neighbour_number k hk)
  refine ⟨?_, ?_, hmem.2, ?_, ?_⟩
  · unfold Network.step_probability
    rw [(hinv agent_number ha).1]
  · rw [step_eq_of_success net hc _ _ r k hd hr]
    simp
  · have := hmem.1
    omega
  · intro m hm
    rw [step_eq_of_success net hc _ _ r k hd hr]
    simp [hm]

/-- A culturized pair of adjacent nodes disagreeing on exactly one of two
features (similarity 1/2), used by step witnesses. -/
def pairNet : Network where
  nodes := [0, 1]
  adj := fun n => if n = 0 then [1] else if n = 1 then [0] else []
  culture := fun n => if n = 0 then [1, 2] else if n = 1 then [1, 3] else []
  color := fun _ => none
  culturized := true
  number_of_features := 2
  number_of_traits := 3

/-- C4 witness: the theorem applied to `pairNet` with agent 0, partner 1,
Bernoulli draw 0 (< 1/2) and choice position 0. -/
theorem step_copy_semantics_witness :
    pairNet.step_probability 0 1 =
      (commonCount (pairNet.culture 0) (pairNet.culture 1) : ℚ) /
        (pairNet.number_of_features : ℚ) ∧
    (pairNet.step 0 1 0 0).culture 1 =
      ((pairNet.culture 1).set (pairNet.feature_to_change_idx 0 1 0)
        ((pairNet.culture 0).getD (pairNet.feature_to_change_idx 0 1 0) 0)) ∧
    (pairNet.culture 0).getD (pairNet.feature_to_change_idx 0 1 0) 0 ≠
      (pairNet.culture 1).getD (pairNet.feature_to_change_idx 0 1 0) 0 ∧
    pairNet.feature_to_change_idx 0 1 0 < (pairNet.culture 1).length ∧
    ∀ m, m ≠ 1 → (pairNet.step 0 1 0 0).culture m = pairNet.culture m :=
  step_copy_semantics pairNet rfl (by decide) 0 1 (by decide) (by decide)
    0 0 (by decide) (by decide)
    (by
      have h1 : commonCount (pairNet.culture 0) (pairNet.culture 1) = 1 := by decide
      have h2 : (pairNet.culture 0).length = 2 := by decide
      unfold Network.step_probability
      rw [h1, h2]
      norm_num)

/-- C5: on a culturized network satisfying the culture invariants, one
interaction step preserves every culture vector's length, keeps all trait
values inside `[1, number_of_traits]`, and mutates at most one feature of
at most one node — the partner; all other nodes are untouched. -/
theorem step_non_destructive (net : Network) (hc : net.culturized = true)
    (hinv : cultureInvariant net)
    (agent_number neighbour_number : Nat)
    (ha : agent_number ∈ net.nodes) (hb : neighbour_number ∈ net.adj agent_number)
    (hbn : neighbour_number ∈ net.nodes)
    (r : ℚ) (k : Nat) :
    (∀ m, m ≠ neighbour_number →
      (net.step agent_number neighbour_number r k).culture m = net.culture m) ∧
    (∀ m, ((net.step agent_number neighbour_number r k).culture m).length =
      (net.culture m).length) ∧
    (∀ m ∈ net.nodes, ∀ v ∈ (net.step agent_number neighbour_number r k).culture m,
      1 ≤ v ∧ v ≤ net.number_of_traits) ∧
    ∃ j, ∀ i, i ≠ j →
      ((net.step agent_number neighbour_number r k).culture neighbour_number).getD i 0 =
        (net.culture neighbour_number).getD i 0 := by
  by_cases hg : 0 < (disagreementIdxs (net.culture agent_number)
      (net.culture neighbour_number)).length ∧
      r < net.step_probability agent_number neighbour_number
  · have hd : disagreementIdxs (net.culture agent_number)
        (net.culture neighbour_number) ≠ [] := by
      intro hnil
      rw [hnil] at hg
      simp at hg
    have hstep := step_eq_of_success net hc agent_number neighbour_number r k hd hg.2
    have hlt := feature_to_change_idx_lt net agent_number neighbour_number k hd
    have hidxa : net.feature_to_change_idx agent_number neighbour_number k <
        (net.culture agent_number).length := by omega
    have hval : 1 ≤ (net.culture agent_number).getD
          (net.feature_to_change_idx agent_number neighbour_number k) 0 ∧
        (net.culture agent_number).getD
          (net.feature_to_change_idx agent_number neighbour_number k) 0 ≤
          net.number_of_traits := by
      rw [List.getD_eq_getElem _ _ hidxa]
      exact (hinv agent_number ha).2 _ (List.getElem_mem hidxa)
    refine ⟨?_, ?_, ?_, ?_⟩
    · intro m hm
      rw [hstep]
      simp [hm]
    · intro m
      rw [hstep]
      by_cases hm : m = neighbour_number
      · simp only [hm, if_true, if_pos rfl]
        exact List.length_set _ _ _
      · simp [hm]
    · intro m hm v hv
      rw [hstep] at hv
      by_cases hmb : m = neighbour_number
      · subst hmb
        simp only [if_pos rfl] at hv
        rcases List.mem_or_eq_of_mem_set hv with hold | hnew
        · exact (hinv m hm).2 v hold
        · rw [hnew]
          exact hval
      · simp only [hmb, if_false, if_neg hmb] at hv
        exact (hinv m hm).2 v hv
    · refine ⟨net.feature_to_change_idx agent_number neighbour_number k, fun i hi => ?_⟩
      rw [hstep]
      simp only [eq_self_iff_true, if_true, List.getD_eq_getElem?_getD]
      rw [List.getElem?_set_ne (Ne.symm hi)]
  · have hstep := step_eq_of_failure net _ _ r k hg
    refine ⟨fun m _ => by rw [hstep], fun m => by rw [hstep],
      fun m hm v hv => (hinv m hm).2 v (by rwa [hstep] at hv),
      ⟨0, fun i _ => by rw [hstep]⟩⟩

/-- C5 witness: the theorem applied to `pairNet` with agent 0, partner 1,
Bernoulli draw 0 and choice position 0. -/
theorem step_non_destructive_witness :
    (∀ m, m ≠ 1 → (pairNet.step 0 1 0 0).culture m = pairNet.culture m) ∧
    (∀ m, ((pairNet.step 0 1 0 0).culture m).length = (pairNet.culture m).length) ∧
    (∀ m ∈ pairNet.nodes, ∀ v ∈ (pairNet.step 0 1 0 0).culture m,
      1 ≤ v ∧ v ≤ pairNet.number_of_traits) ∧
    ∃ j, ∀ i, i ≠ j →
      ((pairNet.step 0 1 0 0).culture 1).getD i 0 = (pairNet.culture 1).getD i 0 :=
  step_non_destructive pairNet rfl (by decide) 0 1 (by decide) (by decide)
    (by decide) 0 0

/-- C2: once `fixed_point` returns `True` on a culturized network satisfying
the data-model invariants (culture lengths equal to a positive
`number_of_features`, adjacency inside the node set), an interaction step
leaves every node's culture unchanged, for every choice of agent, of
neighbor, of the Bernoulli draw `r ≥ 0`, and of the disagreement choice
position `k`. -/
theorem fixed_point_stable (net : Network) (hc : net.culturized = true)
    (hinv : cultureInvariant net) (hca : closedAdj net)
    (hF : 1 ≤ net.number_of_features)
    (hfp : net.fixed_point = some true)
    (agent_number : Nat) (ha : agent_number ∈ net.nodes)
    (neighbour_number : Nat) (hb : neighbour_number ∈ net.adj agent_number)
    (r : ℚ) (hr : 0 ≤ r) (k : Nat) :
    ∀ m, (net.step agent_number neighbour_number r k).culture m = net.culture m := by
  have hpair := (fixed_point_iff_aux net hc).mp hfp agent_number ha neighbour_number hb
  have hbn : neighbour_number ∈ net.nodes := hca agent_number ha neighbour_number hb
  have hla : (net.culture agent_number).length = net.number_of_features :=
    (hinv agent_number ha).1
  have hlb : (net.culture neighbour_number).length = net.number_of_features :=
    (hinv neighbour_number hbn).1
  have hcf : net.common_features agent_number neighbour_number =
      some (commonCount (net.culture agent_number) (net.culture neighbour_number)) := by
    simp [Network.common_features, hc]
  have hstep : net.step agent_number neighbour_number r k = net := by
    apply step_eq_of_failure
    rintro ⟨hg1, hg2⟩
    rcases hpair with h0 | hFull
    · rw [hcf, Option.some.injEq] at h0
      have hp0 : net.step_probability agent_number neighbour_number = 0 := by
        unfold Network.step_probability
        rw [h0]
        simp
      rw [hp0] at hg2
      exact absurd hg2 (not_lt.mpr hr)
    · rw [hcf, Option.some.injEq] at hFull
      have hmin : min (net.culture agent_number).length
          (net.culture neighbour_number).length = net.number_of_features := by
        rw [hla, hlb, Nat.min_self]
      have hall : ∀ i ∈ List.range (min (net.culture agent_number).length
            (net.culture neighbour_number).length),
          ((net.culture agent_number).getD i 0 ==
            (net.culture neighbour_number).getD i 0) = true := by
        apply List.countP_eq_length.mp
        unfold commonCount at hFull
        rw [hFull, List.length_range, hmin]
      have hdis : disagreementIdxs (net.culture agent_number)
          (net.culture neighbour_number) = [] := by
        unfold disagreementIdxs
        rw [List.filter_eq_nil_iff]
        intro i hi
        simp only [hall i hi, decide_not, Bool.not_eq_true]
        simp [hall i hi]
      rw [hdis] at hg1
      simp at hg1
  intro m
  rw [hstep]

/-- C2 witness: `sampleNet` is a fixed point (adjacent nodes 0 and 1 share
their whole culture, node 2 is isolated); a step with agent 0, partner 1,
draw 0 and position 0 changes nothing. -/
theorem fixed_point_stable_witness :
    sampleNet.fixed_point = some true ∧
      ∀ m, (sampleNet.step 0 1 0 0).culture m = sampleNet.culture m :=
  ⟨by decide,
    fixed_point_stable sampleNet rfl (by decide) (by decide) (by decide)
      (by decide) 0 (by decide) 1 (by decide) 0 le_rfl 0⟩

/-- Python `list.index` of a present element lands inside the list. -/
theorem indexOf_lt_length_of_mem {l : List (List Nat)} {a : List Nat}
    (h : a ∈ l) : l.indexOf a < l.length :=
  List.findIdx_lt_length_of_exists ⟨a, h, by simp⟩

/-- Python `list.index` retrieves the looked-up element back. -/
theorem getD_indexOf_self {l : List (List Nat)} {a : List Nat}
    (h : a ∈ l) : l.getD (l.indexOf a) [] = a := by
  have hlt := indexOf_lt_length_of_mem h
  rw [List.getD_eq_getElem _ _ hlt]
  have := @List.findIdx_getElem _ (· == a) l hlt
  simpa using this

/-- C9: on a culturized network, `colorea_nodos` stores in each node's
`color` attribute the index of that node's culture in the distinct-culture
enumeration returned by `network_cultures`, the enumeration at that index
being exactly the node's culture, and returns the list of those indices in
node-iteration order. -/
theorem colorea_nodos_spec (net : Network) (hc : net.culturized = true)
    (cl : List (List Nat)) (q : Nat)
    (hnc : net.network_cultures = some (cl, q)) :
    net.colorea_nodos.2 =
      some (net.nodes.map (fun m => cl.indexOf (net.culture m))) ∧
    ∀ m ∈ net.nodes,
      net.colorea_nodos.1.color m = some (cl.indexOf (net.culture m)) ∧
      cl.indexOf (net.culture m) < cl.length ∧
      cl.getD (cl.indexOf (net.culture m)) [] = net.culture m := by
  have hcl : cl = net.culture_list := by
    unfold Network.network_cultures at hnc
    rw [hc] at hnc
    simp only [if_true, Option.some.injEq, Prod.mk.injEq] at hnc
    exact hnc.1.symm
  subst hcl
  constructor
  · simp [Network.colorea_nodos, hc]
  · intro m hm
    have hmem : net.culture m ∈ net.culture_list := by
      unfold Network.culture_list
      rw [List.mem_dedup]
      exact List.mem_map_of_mem net.culture hm
    refine ⟨?_, indexOf_lt_length_of_mem hmem, getD_indexOf_self hmem⟩
    simp [Network.colorea_nodos, hc, hm]

/-- C9 witness: the theorem applied to `sampleNet`, whose distinct-culture
enumeration is `[[1, 2], [3, 4]]`. -/
theorem colorea_nodos_spec_witness :
    sampleNet.colorea_nodos.2 =
      some (sampleNet.nodes.map
        (fun m => ([[1, 2], [3, 4]] : List (List Nat)).indexOf (sampleNet.culture m))) ∧
    ∀ m ∈ sampleNet.nodes,
      sampleNet.colorea_nodos.1.color m =
        some (([[1, 2], [3, 4]] : List (List Nat)).indexOf (sampleNet.culture m)) ∧
      ([[1, 2], [3, 4]] : List (List Nat)).indexOf (sampleNet.culture m) <
        ([[1, 2], [3, 4]] : List (List Nat)).length ∧
      ([[1, 2], [3, 4]] : List (List Nat)).getD
          (([[1, 2], [3, 4]] : List (List Nat)).indexOf (sampleNet.culture m)) [] =
        sampleNet.culture m :=
  colorea_nodos_spec sampleNet rfl [[1, 2], [3, 4]] 2 (by decide)

/-- C6 counterexample: on the concrete uncultured network `baseNet`, the
cluster analysis (`network_cultures`) returns `None` but prints no report,
and `step` returns the (unchanged) network object itself rather than a
null/empty result — refuting the claim that every culture-dependent
operation both reports the condition and returns a null/empty result. -/
theorem uninitialized_ops_counterexample :
    baseNet.culturized = false ∧
    baseNet.network_cultures = none ∧
    baseNet.network_cultures_output = [] ∧
    baseNet.step 0 1 0 0 = baseNet :=
  ⟨rfl, rfl, rfl, rfl⟩

/-- C6 (amended): every culture-dependent operation invoked while
`culturized` is false leaves the network state untouched and returns
without raising; `common_features` prints the not-culturized message and
returns `None`, `step` silently returns the unchanged network itself, and
`network_cultures`, `cultural_sizes_and_max`, `colorea_nodos` and
`fixed_point` silently return `None`. -/
theorem uninitialized_ops_amended (net : Network) (hc : net.culturized = false) :
    (∀ p1 p2, net.common_features p1 p2 = none) ∧
    net.common_features_output = [not_culturized_message] ∧
    (∀ a b r k, net.step a b r k = net) ∧
    net.network_cultures = none ∧
    net.network_cultures_output = [] ∧
    net.cultural_sizes_and_max = PyVal.retNone ∧
    net.colorea_nodos.1 = net ∧
    net.colorea_nodos.2 = none ∧
    net.fixed_point = none := by
  refine ⟨?_, ?_, ?_, ?_, rfl, ?_, ?_, ?_, ?_⟩
  · intro p1 p2
    simp [Network.common_features, hc]
  · simp [Network.common_features_output, hc]
  · intro a b r k
    simp [Network.step, hc]
  · simp [Network.network_cultures, hc]
  · simp [Network.cultural_sizes_and_max, hc]
  · simp [Network.colorea_nodos, hc]
  · simp [Network.colorea_nodos, hc]
  · simp [Network.fixed_point, hc]

/-- C6 witness: the amended behavior at the concrete uncultured `baseNet`. -/
theorem uninitialized_ops_amended_witness :
    baseNet.culturized = false ∧
    ((∀ p1 p2, baseNet.common_features p1 p2 = none) ∧
    baseNet.common_features_output = [not_culturized_message] ∧
    (∀ a b r k, baseNet.step a b r k = baseNet) ∧
    baseNet.network_cultures = none ∧
    baseNet.network_cultures_output = [] ∧
    baseNet.cultural_sizes_and_max = PyVal.retNone ∧
    baseNet.colorea_nodos.1 = baseNet ∧
    baseNet.colorea_nodos.2 = none ∧
    baseNet.fixed_point = none) :=
  ⟨rfl, uninitialized_ops_amended baseNet rfl⟩
